import Mathlib

/-!
Verification of the tscached read-through caching proxy for time-series queries.

The development shallowly embeds the orchestrator (`tscached/handler_general.py`)
and the query-descriptor / series-entry model (`KQuery` / `MTS`).  The descriptor
and series classes themselves (`tscached/kquery.py`, `tscached/datacache.py`) are
not part of the source snapshot; definitions for them are modelled from the spec
(and matched against the observable behaviour asserted by `tests/test_kquery.py`),
and are marked as such in their doc comments.
-/

namespace Tscached

/-- A JSON-like value, as used for query bodies, aggregators and stored records. -/
inductive JVal where
  | jbool : Bool → JVal
  | jnum  : Int → JVal
  | jstr  : String → JVal
  | jarr  : List JVal → JVal
  | jobj  : List (String × JVal) → JVal

/-- A Python dict with string keys, in insertion order. -/
abbrev Dict := List (String × JVal)

/-- First-match lookup of a key in a dict (`d[k]` / `d.get(k)`). -/
def lookupKey (d : Dict) (k : String) : Option JVal :=
  match d with
  | [] => none
  | (k', v) :: rest => if k' = k then some v else lookupKey rest k

/-- Removal of every entry with the given key (`del d[k]`). -/
def removeKey (d : Dict) (k : String) : Dict :=
  match d with
  | [] => []
  | (k', v) :: rest => if k' = k then removeKey rest k else (k', v) :: removeKey rest k

/-- Assignment `d[k] = v`, modelled as remove-then-append; lookup-equivalent to the
Python dict mutation. -/
def setKey (d : Dict) (k : String) (v : JVal) : Dict :=
  removeKey d k ++ [(k, v)]

/-- In-place update of the value stored at a key, preserving entry order; the dict
is unchanged when the key is absent. -/
def mapVal (d : Dict) (k : String) (f : JVal → JVal) : Dict :=
  match d with
  | [] => []
  | (k', v) :: rest => if k' = k then (k', f v) :: rest else (k', v) :: mapVal rest k f

theorem lookupKey_append (d₁ d₂ : Dict) (k : String) :
    lookupKey (d₁ ++ d₂) k =
      match lookupKey d₁ k with
      | some v => some v
      | none => lookupKey d₂ k := by
  induction d₁ with
  | nil => rfl
  | cons p rest ih =>
    obtain ⟨k', v⟩ := p
    by_cases h : k' = k
    · simp [lookupKey, h]
    · simp [lookupKey, h, ih]

theorem lookupKey_removeKey_self (d : Dict) (k : String) :
    lookupKey (removeKey d k) k = none := by
  induction d with
  | nil => rfl
  | cons p rest ih =>
    obtain ⟨k', v⟩ := p
    by_cases h : k' = k
    · simp [removeKey, h, ih]
    · simp [removeKey, lookupKey, h, ih]

theorem lookupKey_removeKey_ne (d : Dict) (k k' : String) (h : k' ≠ k) :
    lookupKey (removeKey d k) k' = lookupKey d k' := by
  have hne : k ≠ k' := fun hh => h hh.symm
  induction d with
  | nil => rfl
  | cons p rest ih =>
    obtain ⟨k₀, v⟩ := p
    by_cases h0 : k₀ = k
    · subst h0
      simp only [removeKey, if_pos rfl, lookupKey, if_neg hne]
      exact ih
    · simp only [removeKey, if_neg h0, lookupKey]
      by_cases h1 : k₀ = k'
      · simp [h1]
      · simp [h1, ih]

theorem lookupKey_setKey_self (d : Dict) (k : String) (v : JVal) :
    lookupKey (setKey d k v) k = some v := by
  unfold setKey
  rw [lookupKey_append, lookupKey_removeKey_self]
  simp [lookupKey]

theorem lookupKey_setKey_ne (d : Dict) (k k' : String) (v : JVal) (h : k' ≠ k) :
    lookupKey (setKey d k v) k' = lookupKey d k' := by
  have hne : k ≠ k' := fun hh => h hh.symm
  unfold setKey
  rw [lookupKey_append, lookupKey_removeKey_ne d k k' h]
  cases h0 : lookupKey d k' with
  | some w => simp
  | none => simp [lookupKey, if_neg hne]

theorem lookupKey_mapVal_self (d : Dict) (k : String) (f : JVal → JVal) :
    lookupKey (mapVal d k f) k = (lookupKey d k).map f := by
  induction d with
  | nil => rfl
  | cons p rest ih =>
    obtain ⟨k', v⟩ := p
    by_cases h : k' = k
    · simp [mapVal, lookupKey, h]
    · simp [mapVal, lookupKey, h, ih]

theorem lookupKey_mapVal_ne (d : Dict) (k k' : String) (f : JVal → JVal) (h : k' ≠ k) :
    lookupKey (mapVal d k f) k' = lookupKey d k' := by
  have hne : k ≠ k' := fun hh => h hh.symm
  induction d with
  | nil => rfl
  | cons p rest ih =>
    obtain ⟨k₀, v⟩ := p
    by_cases h0 : k₀ = k
    · subst h0
      simp only [mapVal, if_pos rfl, lookupKey, if_neg hne]
    · simp only [mapVal, if_neg h0, lookupKey]
      by_cases h1 : k₀ = k'
      · simp [h1]
      · simp [h1, ih]

/-- The metadata keys that `KQuery.upsert` accumulates onto the query dict, as
observed in `tests/test_kquery.py::test_upsert`. -/
def metaKeys : List String := ["mts_keys", "last_add_data", "earliest_data"]

/-- Removal of every accumulated-metadata entry from a dict. -/
def stripMeta (d : Dict) : Dict :=
  match d with
  | [] => []
  | (k, v) :: rest => if k ∈ metaKeys then stripMeta rest else (k, v) :: stripMeta rest

theorem stripMeta_append (d₁ d₂ : Dict) :
    stripMeta (d₁ ++ d₂) = stripMeta d₁ ++ stripMeta d₂ := by
  induction d₁ with
  | nil => rfl
  | cons p rest ih =>
    obtain ⟨k, v⟩ := p
    by_cases h : k ∈ metaKeys
    · simp [stripMeta, h, ih]
    · simp [stripMeta, h, ih]

theorem stripMeta_removeKey_of_mem (d : Dict) (k : String) (h : k ∈ metaKeys) :
    stripMeta (removeKey d k) = stripMeta d := by
  induction d with
  | nil => rfl
  | cons p rest ih =>
    obtain ⟨k₀, v⟩ := p
    by_cases h0 : k₀ = k
    · subst h0
      simp [removeKey, stripMeta, h, ih]
    · by_cases h1 : k₀ ∈ metaKeys
      · simp [removeKey, stripMeta, h0, h1, ih]
      · simp [removeKey, stripMeta, h0, h1, ih]

theorem stripMeta_setKey_of_mem (d : Dict) (k : String) (v : JVal) (h : k ∈ metaKeys) :
    stripMeta (setKey d k v) = stripMeta d := by
  unfold setKey
  rw [stripMeta_append, stripMeta_removeKey_of_mem d k h]
  simp [stripMeta, h]

theorem stripMeta_eq_self (d : Dict) (h : ∀ p ∈ d, p.1 ∉ metaKeys) :
    stripMeta d = d := by
  induction d with
  | nil => rfl
  | cons p rest ih =>
    obtain ⟨k, v⟩ := p
    have hk : k ∉ metaKeys := h (k, v) (List.mem_cons_self _ _)
    simp [stripMeta, hk, ih fun q hq => h q (List.mem_cons_of_mem _ hq)]

/-- A series object exposing its own store key, as accepted by `KQuery.add_mts`
(`tests/test_kquery.py::test_upsert` passes a `FakeMTS` with a `get_key` method). -/
structure SeriesObj where
  get_key : String

/-- The duck-typed argument of `add_mts`: either a raw key string or a series object. -/
inductive SeriesOrKey where
  | raw : String → SeriesOrKey
  | obj : SeriesObj → SeriesOrKey

/-- The key denoted by an `add_mts` argument. -/
def keyOf : SeriesOrKey → String
  | .raw k => k
  | .obj o => o.get_key

/-- Insertion into a deduplicated collection: a no-op when already present
(Python `set.add`). -/
def addKeyOnce (l : List String) (k : String) : List String :=
  if k ∈ l then l else l ++ [k]

/-- Modelled from the spec: the `KQuery` descriptor (`tscached/kquery.py`, absent from
src/). `query` is the mutable query dict (the submitted spec, which `upsert` extends
with `mts_keys` / `last_add_data` / `earliest_data`, per `test_upsert`); `related_mts`
is the deduplicated set of related series keys. -/
structure KQueryM where
  query : Dict
  related_mts : List String

/-- Modelled from the spec: `KQuery.add_mts` (`tscached/kquery.py`, absent from src/)
accepts a series object or a raw key string and adds its key to `related_mts`;
idempotent. -/
def add_mts (kq : KQueryM) (s : SeriesOrKey) : KQueryM :=
  { kq with related_mts := addKeyOnce kq.related_mts (keyOf s) }

/-- Modelled from the spec: `KQuery.key_basis` (`tscached/kquery.py`, absent from src/)
returns the fields used for fingerprinting — only the original query body, never the
accumulated metadata. -/
def key_basis (kq : KQueryM) : Dict := stripMeta kq.query

/-- Modelled from the spec: `create_key` (`tscached/utils.py`, absent from src/)
produces a deterministic, namespaced digest of the serialized basis; the digest is
modelled injectively as the namespace paired with the basis itself. -/
def create_key (basis : Dict) (ns : String) : String × Dict := (ns, basis)

/-- Modelled from the spec: `KQuery.get_key` — the descriptor's store key, a digest
over `key_basis` in the kquery namespace. -/
def get_key (kq : KQueryM) : String × Dict := create_key (key_basis kq) "kquery"

/-- The dict mutation performed by `upsert`: serialize `mts_keys`, set `last_add_data`
from the second argument (else `now`), seed `earliest_data` from the first argument
only when not already present. -/
def upsertDict (q : Dict) (mts : List String) (firstArg : Int) (secondArg : Option Int)
    (now : Int) : Dict :=
  let q2 := setKey (setKey q "mts_keys" (JVal.jarr (mts.map JVal.jstr)))
    "last_add_data" (JVal.jnum (secondArg.getD now))
  match lookupKey q2 "earliest_data" with
  | some _ => q2
  | none => setKey q2 "earliest_data" (JVal.jnum firstArg)

/-- Modelled from the spec: `KQuery.upsert` (`tscached/kquery.py`, absent from src/),
with behaviour fixed by `tests/test_kquery.py::test_upsert`: serializes `related_mts`
into `mts_keys`; sets `last_add_data` from the epoch of the second argument when
supplied and non-null, else from the current wall-clock time; seeds `earliest_data`
from the epoch of the first argument only when not already set; then writes the full
record to the store under `get_key`. Returns the mutated descriptor and the single-key
store write (key, value). -/
def upsert (kq : KQueryM) (firstArg : Int) (secondArg : Option Int) (now : Int) :
    KQueryM × ((String × Dict) × Dict) :=
  let q3 := upsertDict kq.query kq.related_mts firstArg secondArg now
  let kq' : KQueryM := ⟨q3, kq.related_mts⟩
  (kq', (get_key kq', q3))

theorem lookupKey_upsertDict_last (q : Dict) (mts : List String) (a : Int) (b : Option Int)
    (now : Int) :
    lookupKey (upsertDict q mts a b now) "last_add_data" = some (JVal.jnum (b.getD now)) := by
  simp only [upsertDict]
  split
  · exact lookupKey_setKey_self _ _ _
  · rw [lookupKey_setKey_ne _ _ _ _ (by decide)]
    exact lookupKey_setKey_self _ _ _

theorem lookupKey_upsertDict_earliest_of_none (q : Dict) (mts : List String) (a : Int)
    (b : Option Int) (now : Int) (h : lookupKey q "earliest_data" = none) :
    lookupKey (upsertDict q mts a b now) "earliest_data" = some (JVal.jnum a) := by
  have hq2 :
      lookupKey (setKey (setKey q "mts_keys" (JVal.jarr (mts.map JVal.jstr)))
        "last_add_data" (JVal.jnum (b.getD now))) "earliest_data" = none := by
    rw [lookupKey_setKey_ne _ _ _ _ (by decide), lookupKey_setKey_ne _ _ _ _ (by decide), h]
  simp only [upsertDict, hq2]
  exact lookupKey_setKey_self _ _ _

theorem lookupKey_upsertDict_earliest_of_some (q : Dict) (mts : List String) (a : Int)
    (b : Option Int) (now : Int) (w : JVal) (h : lookupKey q "earliest_data" = some w) :
    lookupKey (upsertDict q mts a b now) "earliest_data" = some w := by
  have hq2 :
      lookupKey (setKey (setKey q "mts_keys" (JVal.jarr (mts.map JVal.jstr)))
        "last_add_data" (JVal.jnum (b.getD now))) "earliest_data" = some w := by
    rw [lookupKey_setKey_ne _ _ _ _ (by decide), lookupKey_setKey_ne _ _ _ _ (by decide), h]
  simp only [upsertDict, hq2]

theorem stripMeta_upsertDict (q : Dict) (mts : List String) (a : Int) (b : Option Int)
    (now : Int) :
    stripMeta (upsertDict q mts a b now) = stripMeta q := by
  have h1 : ("mts_keys" : String) ∈ metaKeys := by simp [metaKeys]
  have h2 : ("last_add_data" : String) ∈ metaKeys := by simp [metaKeys]
  have h3 : ("earliest_data" : String) ∈ metaKeys := by simp [metaKeys]
  simp only [upsertDict]
  split
  · rw [stripMeta_setKey_of_mem _ _ _ h2, stripMeta_setKey_of_mem _ _ _ h1]
  · rw [stripMeta_setKey_of_mem _ _ _ h3, stripMeta_setKey_of_mem _ _ _ h2,
      stripMeta_setKey_of_mem _ _ _ h1]

theorem key_basis_upsert (kq : KQueryM) (a : Int) (b : Option Int) (now : Int) :
    key_basis (upsert kq a b now).1 = key_basis kq := by
  simp only [upsert, key_basis]
  exact stripMeta_upsertDict _ _ _ _ _

theorem addKeyOnce_idem (l : List String) (k : String) :
    addKeyOnce (addKeyOnce l k) k = addKeyOnce l k := by
  unfold addKeyOnce
  by_cases h : k ∈ l
  · simp [h]
  · simp [h]

theorem mem_addKeyOnce (l : List String) (k k' : String) :
    k' ∈ addKeyOnce l k ↔ k' ∈ l ∨ k' = k := by
  unfold addKeyOnce
  by_cases h : k ∈ l
  · simp only [if_pos h]
    constructor
    · exact fun hh => Or.inl hh
    · rintro (hh | rfl)
      · exact hh
      · exact h
  · simp [if_neg h]

theorem nodup_addKeyOnce (l : List String) (k : String) (h : l.Nodup) :
    (addKeyOnce l k).Nodup := by
  unfold addKeyOnce
  by_cases hm : k ∈ l
  · simpa [hm] using h
  · simp [hm, List.nodup_append, h, List.disjoint_singleton]

theorem add_mts_add_mts (kq : KQueryM) (s : SeriesOrKey) :
    add_mts (add_mts kq s) s = add_mts kq s := by
  simp [add_mts, addKeyOnce_idem]

/-- Repeated `add_mts` of one series identity. -/
def addN (kq : KQueryM) (s : SeriesOrKey) : Nat → KQueryM
  | 0 => kq
  | n + 1 => add_mts (addN kq s n) s

/-- C1: the cache key is a deterministic digest over the submitted query spec alone:
`key_basis` of a fresh descriptor is exactly its original query body, and neither
`upsert`'s accumulated metadata (`mts_keys`, `last_add_data`, `earliest_data`) nor
`add_mts` changes `key_basis` or the store key, so repeated persists of the same
logical query resolve to the same store record. -/
theorem cache_key_stability (kq : KQueryM) (a : Int) (b : Option Int) (now : Int)
    (s : SeriesOrKey) (horig : ∀ p ∈ kq.query, p.1 ∉ metaKeys) :
    key_basis kq = kq.query ∧
    key_basis (upsert kq a b now).1 = key_basis kq ∧
    get_key (upsert kq a b now).1 = get_key kq ∧
    key_basis (add_mts kq s) = key_basis kq ∧
    get_key (add_mts kq s) = get_key kq := by
  have hb := key_basis_upsert kq a b now
  refine ⟨stripMeta_eq_self _ horig, hb, ?_, rfl, rfl⟩
  simp [get_key, create_key, hb]

/-- Witness for C1 at a concrete fresh descriptor. -/
theorem cache_key_stability_witness :
    (∀ p ∈ ([("wubbalubba", JVal.jstr "dubdub")] : Dict), p.1 ∉ metaKeys) ∧
    (key_basis ⟨[("wubbalubba", JVal.jstr "dubdub")], []⟩ =
        ([("wubbalubba", JVal.jstr "dubdub")] : Dict) ∧
      key_basis (upsert ⟨[("wubbalubba", JVal.jstr "dubdub")], []⟩ 3 none 7).1 =
        key_basis ⟨[("wubbalubba", JVal.jstr "dubdub")], []⟩ ∧
      get_key (upsert ⟨[("wubbalubba", JVal.jstr "dubdub")], []⟩ 3 none 7).1 =
        get_key ⟨[("wubbalubba", JVal.jstr "dubdub")], []⟩ ∧
      key_basis (add_mts ⟨[("wubbalubba", JVal.jstr "dubdub")], []⟩ (.raw "hello")) =
        key_basis ⟨[("wubbalubba", JVal.jstr "dubdub")], []⟩ ∧
      get_key (add_mts ⟨[("wubbalubba", JVal.jstr "dubdub")], []⟩ (.raw "hello")) =
        get_key ⟨[("wubbalubba", JVal.jstr "dubdub")], []⟩) :=
  ⟨by decide, cache_key_stability ⟨[("wubbalubba", JVal.jstr "dubdub")], []⟩ 3 none 7
    (.raw "hello") (by decide)⟩

/-- C5: the persisted `last_add_data` equals the epoch of `upsert`'s second argument
when supplied and non-null, and the current wall-clock time otherwise; in particular
`upsert(x, null)` followed by `upsert(x, T2)` leaves the stored `last_add_data` equal
to `T2`, not the time of the call. -/
theorem upsert_last_add_data_spec (kq : KQueryM) (a a₂ t₂ now now₂ : Int) :
    lookupKey (upsert kq a (some t₂) now).2.2 "last_add_data" = some (JVal.jnum t₂) ∧
    lookupKey (upsert kq a none now).2.2 "last_add_data" = some (JVal.jnum now) ∧
    lookupKey (upsert (upsert kq a none now).1 a₂ (some t₂) now₂).2.2 "last_add_data" =
      some (JVal.jnum t₂) := by
  refine ⟨?_, ?_, ?_⟩
  · simpa using lookupKey_upsertDict_last kq.query kq.related_mts a (some t₂) now
  · simpa using lookupKey_upsertDict_last kq.query kq.related_mts a none now
  · simpa using lookupKey_upsertDict_last (upsert kq a none now).1.query
      (upsert kq a none now).1.related_mts a₂ (some t₂) now₂

/-- C6: `earliest_data` is write-once: on a descriptor where it is unset, the first
`upsert` seeds it from the epoch of the first argument, and a second `upsert` with a
different seed leaves it unchanged. -/
theorem upsert_earliest_data_write_once (kq : KQueryM) (t₁ t₂ now now₂ : Int)
    (b b₂ : Option Int) (h : lookupKey kq.query "earliest_data" = none) :
    lookupKey (upsert kq t₁ b now).2.2 "earliest_data" = some (JVal.jnum t₁) ∧
    lookupKey (upsert (upsert kq t₁ b now).1 t₂ b₂ now₂).2.2 "earliest_data" =
      some (JVal.jnum t₁) := by
  have h1 : lookupKey (upsert kq t₁ b now).2.2 "earliest_data" = some (JVal.jnum t₁) :=
    lookupKey_upsertDict_earliest_of_none kq.query kq.related_mts t₁ b now h
  refine ⟨h1, ?_⟩
  exact lookupKey_upsertDict_earliest_of_some (upsert kq t₁ b now).1.query
    (upsert kq t₁ b now).1.related_mts t₂ b₂ now₂ (JVal.jnum t₁) h1

/-- Witness for C6 at a concrete descriptor with `earliest_data` unset, seeding with
1234567890 then 1234569890. -/
theorem upsert_earliest_data_write_once_witness :
    lookupKey (⟨[("hello", JVal.jstr "some_query")], ["rick-and-morty"]⟩ : KQueryM).query
        "earliest_data" = none ∧
    (lookupKey (upsert ⟨[("hello", JVal.jstr "some_query")], ["rick-and-morty"]⟩
          1234567890 none 1451606400).2.2 "earliest_data" = some (JVal.jnum 1234567890) ∧
      lookupKey (upsert (upsert ⟨[("hello", JVal.jstr "some_query")], ["rick-and-morty"]⟩
            1234567890 none 1451606400).1 1234569890 (some 1234569890) 1451606400).2.2
          "earliest_data" = some (JVal.jnum 1234567890)) :=
  ⟨rfl, upsert_earliest_data_write_once ⟨[("hello", JVal.jstr "some_query")],
    ["rick-and-morty"]⟩ 1234567890 1234569890 1451606400 1451606400 none
    (some 1234569890) rfl⟩

/-- C10: `add_mts` is idempotent — adding a series identity N+1 times equals adding it
once; membership in the related-series collection is insertion-order independent; a
series object and its raw key behave identically; and the collection stays
deduplicated. -/
theorem add_mts_idempotent_set (kq : KQueryM) (s t : SeriesOrKey) (n : Nat) (k : String)
    (o : SeriesObj) (hnd : kq.related_mts.Nodup) :
    addN kq s (n + 1) = add_mts kq s ∧
    (k ∈ (add_mts (add_mts kq s) t).related_mts ↔
      k ∈ (add_mts (add_mts kq t) s).related_mts) ∧
    add_mts kq (.obj o) = add_mts kq (.raw o.get_key) ∧
    (add_mts kq s).related_mts.Nodup := by
  refine ⟨?_, ?_, rfl, nodup_addKeyOnce _ _ hnd⟩
  · induction n with
    | zero => rfl
    | succ m ih =>
      show add_mts (addN kq s (m + 1)) s = add_mts kq s
      rw [ih, add_mts_add_mts]
  · simp only [add_mts, mem_addKeyOnce]
    tauto

/-- Witness for C10 at concrete inputs mirroring `test__init__etc`. -/
theorem add_mts_idempotent_set_witness :
    ([] : List String).Nodup ∧
    (addN ⟨[("wubbalubba", JVal.jstr "dubdub")], []⟩ (.raw "hello") 3 =
        add_mts ⟨[("wubbalubba", JVal.jstr "dubdub")], []⟩ (.raw "hello") ∧
      ("goodbye" ∈ (add_mts (add_mts ⟨[("wubbalubba", JVal.jstr "dubdub")], []⟩
            (.raw "hello")) (.raw "goodbye")).related_mts ↔
        "goodbye" ∈ (add_mts (add_mts ⟨[("wubbalubba", JVal.jstr "dubdub")], []⟩
            (.raw "goodbye")) (.raw "hello")).related_mts) ∧
      add_mts ⟨[("wubbalubba", JVal.jstr "dubdub")], []⟩ (.obj ⟨"rick-and-morty"⟩) =
        add_mts ⟨[("wubbalubba", JVal.jstr "dubdub")], []⟩ (.raw "rick-and-morty") ∧
      (add_mts ⟨[("wubbalubba", JVal.jstr "dubdub")], []⟩
          (.raw "hello")).related_mts.Nodup) :=
  ⟨List.nodup_nil, add_mts_idempotent_set ⟨[("wubbalubba", JVal.jstr "dubdub")], []⟩
    (.raw "hello") (.raw "goodbye") 2 "goodbye" ⟨"rick-and-morty"⟩ List.nodup_nil⟩

/-- Modelled from the spec: the aggregator normalization in `KQuery.from_request`
(`tscached/kquery.py`, absent from src/): an aggregator carrying `align_sampling: true`
is rewritten to carry `align_start_time: true` instead, with the same `sampling`
payload and all other fields unchanged (`test_from_request_replace_align_sampling`). -/
def normalizeAgg (a : Dict) : Dict :=
  match lookupKey a "align_sampling" with
  | some (.jbool true) =>
      setKey (removeKey a "align_sampling") "align_start_time" (JVal.jbool true)
  | _ => a

/-- Normalization applied to the value of a metric's `aggregators` entry:
aggregator-by-aggregator over the array, leaving non-object elements alone. -/
def normalizeAggVal (v : JVal) : JVal :=
  match v with
  | .jarr aggs => .jarr (aggs.map fun x =>
      match x with
      | .jobj a => .jobj (normalizeAgg a)
      | other => other)
  | other => other

/-- Normalization of one metric dict: rewrite its `aggregators` entry in place when
present; metrics without aggregators are untouched. -/
def normalizeMetric (m : Dict) : Dict := mapVal m "aggregators" normalizeAggVal

/-- An inbound request body: the ordered `metrics` list plus the shared time-range
fields (`start_relative` and friends). -/
structure Request where
  metrics : List Dict
  shared : Dict

/-- Modelled from the spec: `KQuery.from_request` (`tscached/kquery.py`, absent from
src/) splits a multi-metric request into one descriptor per metric, normalizing each
metric's aggregators, with the descriptor's query set to the metric's own sub-object
(`test_from_request`); the second component is the list of store operations performed
while producing the descriptors — none. -/
def from_request (req : Request) : List KQueryM × List String :=
  (req.metrics.map fun m => ⟨normalizeMetric m, []⟩, [])

theorem normalizeAgg_of_true (a : Dict)
    (h : lookupKey a "align_sampling" = some (JVal.jbool true)) :
    normalizeAgg a = setKey (removeKey a "align_sampling") "align_start_time"
      (JVal.jbool true) := by
  unfold normalizeAgg
  rw [h]

theorem normalizeAgg_eq_self (a : Dict)
    (h : lookupKey a "align_sampling" ≠ some (JVal.jbool true)) :
    normalizeAgg a = a := by
  unfold normalizeAgg
  split
  · next heq => exact absurd heq h
  · rfl

/-- C9: `from_request` produces one descriptor per metric, in order, each descriptor's
query being the metric normalized metric-by-metric and aggregator-by-aggregator —
every aggregator carrying `align_sampling: true` ends up carrying
`align_start_time: true` with the same `sampling` payload and all other aggregator
fields unchanged, aggregators not carrying it are untouched, all non-aggregator metric
fields are unchanged — and it performs no store I/O. -/
theorem from_request_normalizes (req : Request) (a mdict : Dict) (k : String)
    (h : lookupKey a "align_sampling" = some (JVal.jbool true)) :
    (from_request req).2 = [] ∧
    (from_request req).1.map KQueryM.query = req.metrics.map normalizeMetric ∧
    lookupKey (normalizeMetric mdict) "aggregators" =
      (lookupKey mdict "aggregators").map normalizeAggVal ∧
    (k ≠ "aggregators" → lookupKey (normalizeMetric mdict) k = lookupKey mdict k) ∧
    lookupKey (normalizeAgg a) "align_start_time" = some (JVal.jbool true) ∧
    lookupKey (normalizeAgg a) "align_sampling" = none ∧
    lookupKey (normalizeAgg a) "sampling" = lookupKey a "sampling" ∧
    (k ≠ "align_sampling" → k ≠ "align_start_time" →
      lookupKey (normalizeAgg a) k = lookupKey a k) ∧
    (∀ a' : Dict, lookupKey a' "align_sampling" ≠ some (JVal.jbool true) →
      normalizeAgg a' = a') := by
  have ha := normalizeAgg_of_true a h
  refine ⟨rfl, by simp [from_request], lookupKey_mapVal_self _ _ _,
    fun hk => lookupKey_mapVal_ne _ _ _ _ hk, ?_, ?_, ?_, ?_, normalizeAgg_eq_self⟩
  · rw [ha]
    exact lookupKey_setKey_self _ _ _
  · rw [ha, lookupKey_setKey_ne _ _ _ _ (by decide)]
    exact lookupKey_removeKey_self _ _
  · rw [ha, lookupKey_setKey_ne _ _ _ _ (by decide),
      lookupKey_removeKey_ne _ _ _ (by decide)]
  · intro h1 h2
    rw [ha, lookupKey_setKey_ne _ _ _ _ h2, lookupKey_removeKey_ne _ _ _ h1]

/-- Witness for C9 at the aggregator and request of
`test_from_request_replace_align_sampling`. -/
theorem from_request_normalizes_witness :
    lookupKey [("name", JVal.jstr "sum"), ("align_sampling", JVal.jbool true),
        ("sampling", JVal.jobj [("value", JVal.jstr "1"), ("unit", JVal.jstr "minutes")])]
      "align_sampling" = some (JVal.jbool true) ∧
    ((from_request ⟨[[("hello", JVal.jstr "some query")]],
        [("start_relative", JVal.jobj [("value", JVal.jstr "1"),
          ("unit", JVal.jstr "hours")])]⟩).2 = [] ∧
      lookupKey (normalizeAgg [("name", JVal.jstr "sum"),
          ("align_sampling", JVal.jbool true),
          ("sampling", JVal.jobj [("value", JVal.jstr "1"), ("unit", JVal.jstr "minutes")])])
        "align_start_time" = some (JVal.jbool true)) := by
  have hh := from_request_normalizes
    ⟨[[("hello", JVal.jstr "some query")]],
      [("start_relative", JVal.jobj [("value", JVal.jstr "1"), ("unit", JVal.jstr "hours")])]⟩
    [("name", JVal.jstr "sum"), ("align_sampling", JVal.jbool true),
      ("sampling", JVal.jobj [("value", JVal.jstr "1"), ("unit", JVal.jstr "minutes")])]
    [("hello", JVal.jstr "some query")] "name" rfl
  exact ⟨rfl, hh.1, hh.2.2.2.2.1⟩

/-- A series record (MTS) as handled by the orchestrator: its store key
(`mts.get_key()`), its result datapoints (`mts.result`), and its TTL
(`mts.expiry`). -/
structure MTSRec where
  get_key : String
  result : List (Int × Int)
  expiry : Int

/-- An upstream query result: either the payload of series of `queries[0]`, or an
error body carrying the upstream message and status code. -/
inductive KResult where
  | payload : List MTSRec → KResult
  | failure : String → Int → KResult

/-- Whether an upstream result indicates an upstream error (the body carries an
`error` entry). -/
def hasError : KResult → Bool
  | .failure _ _ => true
  | .payload _ => false

/-- One upstream call as issued by the chunked proxy: the metric spec plus
`cache_time: 0`, the chunk's absolute bounds in epoch milliseconds, and the
`propagate` flag. -/
structure KairosCall where
  spec : Dict
  cache_time : Int
  start_absolute : Int
  end_absolute : Int
  propagate : Bool

/-- First error-bearing result in a list of chunk results, with its message and
status code. -/
def firstError : List KResult → Option (String × Int)
  | [] => none
  | .failure m c :: _ => some (m, c)
  | .payload _ :: rest => firstError rest

/-- Modelled from the spec: `KQuery.proxy_to_kairos_chunked` (`tscached/kquery.py`,
absent from src/): calls `query_kairos` once per `(start, end)` pair in order, each
with `propagate = False` and bounds scaled to epoch milliseconds
(`test_proxy_to_kairos_chunked_happy`); after all chunks complete, if any chunk's
result carries an error, the whole call fails with `BackendQueryFailure` and yields no
partial list, else it returns one result per chunk in order. The upstream service is
an oracle from time ranges to results; the first component is the list of calls
issued. -/
def proxy_to_kairos_chunked (spec : Dict) (oracle : Int × Int → KResult)
    (time_ranges : List (Int × Int)) :
    List KairosCall × Except (String × Int) (List KResult) :=
  let calls := time_ranges.map fun r =>
    (⟨spec, 0, r.1 * 1000, r.2 * 1000, false⟩ : KairosCall)
  let results := time_ranges.map oracle
  match firstError results with
  | some e => (calls, .error e)
  | none => (calls, .ok results)

theorem firstError_eq_none (l : List KResult) (h : l.any hasError = false) :
    firstError l = none := by
  induction l with
  | nil => rfl
  | cons r rest ih =>
    cases r with
    | payload s =>
      simp only [List.any_cons, hasError, Bool.false_or] at h
      simp [firstError, ih h]
    | failure m c => simp [hasError] at h

theorem firstError_isSome (l : List KResult) (h : l.any hasError = true) :
    ∃ e, firstError l = some e := by
  induction l with
  | nil => simp at h
  | cons r rest ih =>
    cases r with
    | payload s =>
      simp only [List.any_cons, hasError, Bool.false_or] at h
      simpa [firstError] using ih h
    | failure m c => exact ⟨(m, c), rfl⟩

theorem proxy_chunked_calls (spec : Dict) (oracle : Int × Int → KResult)
    (trs : List (Int × Int)) :
    (proxy_to_kairos_chunked spec oracle trs).1 =
      trs.map fun r => (⟨spec, 0, r.1 * 1000, r.2 * 1000, false⟩ : KairosCall) := by
  simp only [proxy_to_kairos_chunked]
  split <;> rfl

/-- C3: the chunked proxy calls the single-range upstream query exactly once per
`(start, end)` pair, in order, each with error propagation disabled; if any chunk's
result carries an upstream error payload the whole call fails and yields no partial
result list, and otherwise it returns one result per chunk in the order of the input
ranges. -/
theorem proxy_to_kairos_chunked_spec (spec : Dict) (oracle : Int × Int → KResult)
    (trs : List (Int × Int)) :
    (proxy_to_kairos_chunked spec oracle trs).1 =
      (trs.map fun r => (⟨spec, 0, r.1 * 1000, r.2 * 1000, false⟩ : KairosCall)) ∧
    (∀ c ∈ (proxy_to_kairos_chunked spec oracle trs).1, c.propagate = false) ∧
    ((trs.map oracle).any hasError = true →
      ∃ e, (proxy_to_kairos_chunked spec oracle trs).2 = .error e) ∧
    ((trs.map oracle).any hasError = false →
      (proxy_to_kairos_chunked spec oracle trs).2 = .ok (trs.map oracle)) := by
  refine ⟨proxy_chunked_calls spec oracle trs, ?_, ?_, ?_⟩
  · intro c hc
    rw [proxy_chunked_calls] at hc
    obtain ⟨r, _, rfl⟩ := List.mem_map.mp hc
    rfl
  · intro h
    obtain ⟨e, he⟩ := firstError_isSome _ h
    exact ⟨e, by simp only [proxy_to_kairos_chunked, he]⟩
  · intro h
    have he := firstError_eq_none _ h
    simp only [proxy_to_kairos_chunked, he]

/-- Witness for C3 at the scenario of `test_proxy_to_kairos_chunked_raises_except`:
two chunks whose upstream results both carry an error payload. -/
theorem proxy_to_kairos_chunked_spec_witness :
    ((([((1234566090 : Int), (1234567890 : Int)), (1234564290, 1234566090)]).map
        fun _ => KResult.failure "some error message" 500).any hasError = true) ∧
    (∃ e, (proxy_to_kairos_chunked [("hello", JVal.jstr "goodbye")]
        (fun _ => KResult.failure "some error message" 500)
        [(1234566090, 1234567890), (1234564290, 1234566090)]).2 = .error e) :=
  ⟨rfl, (proxy_to_kairos_chunked_spec [("hello", JVal.jstr "goodbye")]
    (fun _ => KResult.failure "some error message" 500)
    [(1234566090, 1234567890), (1234564290, 1234566090)]).2.2.1 rfl⟩

/-- The cached descriptor record as read back by the orchestrator via
`kquery.get_cached()`: `last_modified`, the record's recorded last data-ingestion
time (the staleness basis and delta-fetch start bound), and `mts_keys`, the stored
series keys. -/
structure KQRecord where
  last_modified : Int
  mts_keys : List String

/-- Modelled from the spec: `KQuery.is_stale` (`tscached/kquery.py`, absent from
src/): true when `now` minus the record's last-modified time exceeds the configured
freshness threshold. -/
def is_stale (now threshold lm : Int) : Bool := decide (threshold < now - lm)

/-- Insertion of a datapoint into a timestamp-sorted list. -/
def insertByTime (p : Int × Int) : List (Int × Int) → List (Int × Int)
  | [] => [p]
  | q :: rest => if p.1 ≤ q.1 then p :: q :: rest else q :: insertByTime p rest

/-- Insertion sort of datapoints by timestamp. -/
def sortByTime (l : List (Int × Int)) : List (Int × Int) := l.foldr insertByTime []

/-- Modelled from the spec: the datapoint merge of `MTS.merge_from`
(`tscached/datacache.py`, absent from src/): the union of timestamps sorted
ascending; on a timestamp present in both, the other entry's value wins when
`is_newer`, else the existing value is kept. -/
def mergePoints (mine other : List (Int × Int)) (is_newer : Bool) : List (Int × Int) :=
  let winners := if is_newer then other else mine
  let losers := if is_newer then mine else other
  sortByTime (winners ++ losers.filter fun p => !(winners.any fun q => q.1 == p.1))

/-- Modelled from the spec: `MTS.merge_from` merges the other entry's datapoints into
this entry, keeping this entry's key and TTL. -/
def merge_from (self other : MTSRec) (is_newer : Bool) : MTSRec :=
  ⟨self.get_key, mergePoints self.result other.result is_newer, self.expiry⟩

/-- One assembled response entry: the series key (standing for the series' metadata)
and its emitted datapoints. -/
structure RespEntry where
  key : String
  datapoints : List (Int × Int)

/-- The per-query response fragment being accumulated (`response_kquery`), with its
running `sample_size`. -/
structure ResponseFragment where
  results : List RespEntry
  sample_size : Nat

/-- Datapoints as emitted into the response: restricted to the requested time range
when `trim` is set. -/
def trimmed (range : Int × Int) (pts : List (Int × Int)) (trim : Bool) :
    List (Int × Int) :=
  if trim then pts.filter fun p => decide (range.1 ≤ p.1) && decide (p.1 ≤ range.2)
  else pts

/-- Modelled from the spec: `MTS.build_response` (`tscached/datacache.py`, absent from
src/): appends this entry's (possibly trimmed) datapoints and metadata to the
accumulating response and grows the sample size. Calls that pass no explicit flag
(the orchestrator's HOT and WARM merged-entry calls) use the default, which the spec
fixes as `trim = true`. -/
def build_response (range : Int × Int) (mts : MTSRec) (resp : ResponseFragment)
    (trim : Bool) : ResponseFragment :=
  ⟨resp.results ++ [⟨mts.get_key, trimmed range mts.result trim⟩],
    resp.sample_size + (trimmed range mts.result trim).length⟩

/-- The environment of one iteration of `handle_query`'s per-KQuery loop
(`handler_general.py`): the cached descriptor (if any), the upstream service as an
oracle from the optional `start_absolute` bound passed to `proxy_to_kairos` to the
series of its `queries[0]` result, the series store as a single-key view backing
`MTS.from_cache`, the per-key outcomes the pipelined write will report, the clock and
freshness threshold behind `is_stale`, and the requested time range used when
trimming. -/
structure HandlerEnv where
  cached : Option KQRecord
  kairos : Option Int → List MTSRec
  store : String → Option MTSRec
  writeResults : List Bool
  now : Int
  threshold : Int
  range : Int × Int

/-- The observable effects of one `handle_query` iteration: the upstream calls issued
(with the `start_absolute` bound each passed, if any), the pipelined series-record
writes (`pipeline.set(key, value, ex)`), the response fragment appended for this
query, the logged pipeline success count, and whether the descriptor itself was
re-persisted (`kquery.upsert()`); the descriptor record's own content is outside
these claims' scope. -/
structure Effects where
  upstreamCalls : List (Option Int)
  writes : List (String × List (Int × Int) × Int)
  response : ResponseFragment
  successCount : Nat
  descriptorPersisted : Bool

/-- The logged success count of a pipelined write
(`len(filter(lambda x: x == True, result))`). -/
def countTrue (l : List Bool) : Nat := (l.filter fun b => b).length

/-- The cached-MTS lookup table built in the WARM path
(`cached_mts[mts.get_key()] = mts`, last write winning). -/
def cachedTable (cachedSeries : List MTSRec) (k : String) : Option MTSRec :=
  (cachedSeries.filter fun m => m.get_key == k).getLast?

/-- One iteration of the WARM path's loop over newly returned series: when a cached
entry with the same key exists, merge into it with `is_newer = true` and write and
emit the merged entry (default `trim`); else the new-series path — write the entry
and emit it with `trim = false`. -/
def warmStep (range : Int × Int) (tbl : String → Option MTSRec)
    (acc : List (String × List (Int × Int) × Int) × ResponseFragment) (m : MTSRec) :
    List (String × List (Int × Int) × Int) × ResponseFragment :=
  match tbl m.get_key with
  | none =>
      (acc.1 ++ [(m.get_key, m.result, m.expiry)], build_response range m acc.2 false)
  | some old =>
      let merged := merge_from old m true
      (acc.1 ++ [(merged.get_key, merged.result, merged.expiry)],
        build_response range merged acc.2 true)

/-- One iteration of `handle_query`'s per-KQuery loop (`handler_general.py`, lines
50-112): the three-way COLD / HOT / WARM decision and the corresponding
fetch / write / response strategy. -/
def handleKQuery (env : HandlerEnv) : Effects :=
  match env.cached with
  | none =>
      let series := env.kairos none
      ⟨[none],
        series.map fun m => (m.get_key, m.result, m.expiry),
        series.foldl (fun r m => build_response env.range m r false) ⟨[], 0⟩,
        countTrue env.writeResults, true⟩
  | some r =>
      if !(is_stale env.now env.threshold r.last_modified) then
        ⟨[], [],
          (r.mts_keys.filterMap env.store).foldl
            (fun acc m => build_response env.range m acc true) ⟨[], 0⟩,
          0, false⟩
      else
        let out := (env.kairos (some r.last_modified)).foldl
          (warmStep env.range (cachedTable (r.mts_keys.filterMap env.store)))
          ([], ⟨[], 0⟩)
        ⟨[some r.last_modified], out.1, out.2, countTrue env.writeResults, true⟩

/-- The three-way cache-state classification of one query. -/
inductive CacheState where
  | cold
  | hot
  | warm
deriving DecidableEq

/-- The state `handle_query` decides for a query: no descriptor → COLD; descriptor
fresh → HOT; descriptor stale → WARM. -/
def cacheState (env : HandlerEnv) : CacheState :=
  match env.cached with
  | none => .cold
  | some r => if is_stale env.now env.threshold r.last_modified then .warm else .hot

theorem mem_of_getLast?_eq_some {α : Type} (l : List α) (x : α)
    (h : l.getLast? = some x) : x ∈ l := by
  induction l with
  | nil => simp [List.getLast?] at h
  | cons a rest ih =>
    cases rest with
    | nil =>
      simp only [List.getLast?_singleton, Option.some.injEq] at h
      simp [h]
    | cons b t =>
      rw [List.getLast?_cons_cons] at h
      exact List.mem_cons_of_mem _ (ih h)

theorem cachedTable_get_key (cs : List MTSRec) (k : String) (m : MTSRec)
    (h : cachedTable cs k = some m) : m.get_key = k := by
  unfold cachedTable at h
  have hmem := mem_of_getLast?_eq_some _ _ h
  have hp := (List.mem_filter.mp hmem).2
  simpa using hp

theorem warmStep_foldl_writes (range : Int × Int) (cs : List MTSRec)
    (l : List MTSRec)
    (acc : List (String × List (Int × Int) × Int) × ResponseFragment) :
    ∀ w ∈ (l.foldl (warmStep range (cachedTable cs)) acc).1,
      w ∈ acc.1 ∨ w.1 ∈ l.map MTSRec.get_key := by
  induction l generalizing acc with
  | nil => exact fun w hw => Or.inl hw
  | cons m rest ih =>
    intro w hw
    rw [List.foldl_cons] at hw
    rcases ih (warmStep range (cachedTable cs) acc m) w hw with h | h
    · cases htbl : cachedTable cs m.get_key with
      | none =>
        simp only [warmStep, htbl] at h
        rcases List.mem_append.mp h with h1 | h1
        · exact Or.inl h1
        · right
          simp only [List.mem_singleton] at h1
          simp [h1]
      | some old =>
        simp only [warmStep, htbl] at h
        rcases List.mem_append.mp h with h1 | h1
        · exact Or.inl h1
        · right
          simp only [List.mem_singleton] at h1
          have hk : old.get_key = m.get_key := cachedTable_get_key cs m.get_key old htbl
          simp [h1, merge_from, hk]
    · exact Or.inr (by simp only [List.map_cons, List.mem_cons]; exact Or.inr h)

theorem foldl_build_response (range : Int × Int) (t : Bool) (l : List MTSRec)
    (acc : ResponseFragment) :
    l.foldl (fun a m => build_response range m a t) acc =
      ⟨acc.results ++ l.map fun m => ⟨m.get_key, trimmed range m.result t⟩,
        acc.sample_size + (l.map fun m => (trimmed range m.result t).length).sum⟩ := by
  induction l generalizing acc with
  | nil => simp
  | cons m rest ih =>
    rw [List.foldl_cons, ih]
    simp [build_response, Nat.add_assoc]

/-- C2: in the WARM state — descriptor found and stale — the orchestrator issues
exactly one upstream fetch, scoped to the delta range starting at the descriptor's
recorded last data-ingestion time (the stored record's `last_modified` field, which
is also the staleness basis); the end bound is left to the upstream default of now. -/
theorem warm_fetches_delta_range (env : HandlerEnv) (r : KQRecord)
    (hc : env.cached = some r)
    (hs : is_stale env.now env.threshold r.last_modified = true) :
    (handleKQuery env).upstreamCalls = [some r.last_modified] := by
  simp [handleKQuery, hc, hs]

/-- C7: in the HOT state — descriptor found and fresh — the orchestrator makes zero
upstream calls and no store writes, and builds the response fragment solely from the
cached entries found under the descriptor's stored series keys, each emitted with
`trim = true`. -/
theorem hot_serves_from_cache (env : HandlerEnv) (r : KQRecord)
    (hc : env.cached = some r)
    (hs : is_stale env.now env.threshold r.last_modified = false) :
    (handleKQuery env).upstreamCalls = [] ∧
    (handleKQuery env).writes = [] ∧
    (handleKQuery env).response.results =
      (r.mts_keys.filterMap env.store).map
        (fun m => ⟨m.get_key, trimmed env.range m.result true⟩) ∧
    (handleKQuery env).response.sample_size =
      ((r.mts_keys.filterMap env.store).map
        (fun m => (trimmed env.range m.result true).length)).sum := by
  have hb := foldl_build_response env.range true (r.mts_keys.filterMap env.store) ⟨[], 0⟩
  simp only [handleKQuery, hc, hs, Bool.not_false, if_pos, hb]
  simp

/-- A concrete WARM-state environment: a stale descriptor with no registered series
keys, an empty series store, and a delta fetch returning one series whose key is
absent from the store. -/
def warmEnv : HandlerEnv :=
  ⟨some ⟨0, []⟩, fun _ => [⟨"tscached:mts:deadbeef", [(1, 2)], 10800⟩],
    fun _ => none, [true], 5, 1, (0, 10)⟩

/-- Witness for C2 at the concrete WARM environment. -/
theorem warm_fetches_delta_range_witness :
    warmEnv.cached = some ⟨0, []⟩ ∧
    is_stale warmEnv.now warmEnv.threshold 0 = true ∧
    (handleKQuery warmEnv).upstreamCalls = [some 0] :=
  ⟨rfl, rfl, warm_fetches_delta_range warmEnv ⟨0, []⟩ rfl rfl⟩

/-- A concrete HOT-state environment: a fresh descriptor with two registered series
keys, one of which is present in the store. -/
def hotEnv : HandlerEnv :=
  ⟨some ⟨4, ["k1", "k2"]⟩, fun _ => [],
    fun k => if k = "k1" then some ⟨"k1", [(1, 2), (20, 3)], 10800⟩ else none,
    [], 5, 100, (0, 10)⟩

/-- Witness for C7 at the concrete HOT environment. -/
theorem hot_serves_from_cache_witness :
    hotEnv.cached = some ⟨4, ["k1", "k2"]⟩ ∧
    is_stale hotEnv.now hotEnv.threshold 4 = false ∧
    ((handleKQuery hotEnv).upstreamCalls = [] ∧
      (handleKQuery hotEnv).writes = [] ∧
      (handleKQuery hotEnv).response.results =
        ((["k1", "k2"] : List String).filterMap hotEnv.store).map
          (fun m => ⟨m.get_key, trimmed hotEnv.range m.result true⟩) ∧
      (handleKQuery hotEnv).response.sample_size =
        (((["k1", "k2"] : List String).filterMap hotEnv.store).map
          (fun m => (trimmed hotEnv.range m.result true).length)).sum) :=
  ⟨rfl, rfl, hot_serves_from_cache hotEnv ⟨4, ["k1", "k2"]⟩ rfl rfl⟩

/-- C4 counterexample: a WARM-state run (not COLD) writes a brand-new series record —
a key absent from the store — refuting "brand-new series records are created only by
the COLD path". -/
theorem cold_only_creation_counterexample :
    cacheState warmEnv ≠ CacheState.cold ∧
    ∃ w ∈ (handleKQuery warmEnv).writes, warmEnv.store w.1 = none := by
  constructor
  · have h : cacheState warmEnv = CacheState.warm := rfl
    rw [h]
    intro hcontr
    cases hcontr
  · refine ⟨("tscached:mts:deadbeef", [(1, 2)], 10800), ?_, rfl⟩
    have h : (handleKQuery warmEnv).writes =
        [("tscached:mts:deadbeef", [(1, 2)], 10800)] := rfl
    rw [h]
    exact List.mem_singleton.mpr rfl

/-- C4 amended: brand-new series records are created only by the COLD path and by the
WARM path's new-series branch — the HOT path performs no series-record writes at all,
and every WARM-path write is keyed by a series returned by the delta fetch. -/
theorem series_creation_paths (env : HandlerEnv) (r : KQRecord)
    (hc : env.cached = some r) :
    (is_stale env.now env.threshold r.last_modified = false →
      (handleKQuery env).writes = []) ∧
    (is_stale env.now env.threshold r.last_modified = true →
      ∀ w ∈ (handleKQuery env).writes,
        w.1 ∈ (env.kairos (some r.last_modified)).map MTSRec.get_key) := by
  constructor
  · intro hs
    simp [handleKQuery, hc, hs]
  · intro hs w hw
    simp only [handleKQuery, hc, hs, Bool.not_true, Bool.false_eq_true, if_false] at hw
    rcases warmStep_foldl_writes env.range (r.mts_keys.filterMap env.store)
      (env.kairos (some r.last_modified)) ([], ⟨[], 0⟩) w hw with h | h
    · simp at h
    · exact h

/-- Witness for C4's amended claim at the concrete WARM environment. -/
theorem series_creation_paths_witness :
    warmEnv.cached = some ⟨0, []⟩ ∧
    ((is_stale warmEnv.now warmEnv.threshold 0 = false →
        (handleKQuery warmEnv).writes = []) ∧
      (is_stale warmEnv.now warmEnv.threshold 0 = true →
        ∀ w ∈ (handleKQuery warmEnv).writes,
          w.1 ∈ (warmEnv.kairos (some 0)).map MTSRec.get_key)) :=
  ⟨rfl, series_creation_paths warmEnv ⟨0, []⟩ rfl⟩

/-- C8: the per-key outcomes of the pipelined store write never change what the
caller sees — the upstream calls, the writes issued, the response fragment and the
descriptor persist are identical for any two outcome vectors (no rollback, no retry,
no escalation), while the COLD and WARM paths merely count the successes for the
log. -/
theorem partial_write_failure_not_escalated (env : HandlerEnv) (wr wr' : List Bool) :
    (handleKQuery { env with writeResults := wr }).response =
      (handleKQuery { env with writeResults := wr' }).response ∧
    (handleKQuery { env with writeResults := wr }).writes =
      (handleKQuery { env with writeResults := wr' }).writes ∧
    (handleKQuery { env with writeResults := wr }).upstreamCalls =
      (handleKQuery { env with writeResults := wr' }).upstreamCalls ∧
    (handleKQuery { env with writeResults := wr }).descriptorPersisted =
      (handleKQuery { env with writeResults := wr' }).descriptorPersisted ∧
    (cacheState env ≠ CacheState.hot →
      (handleKQuery { env with writeResults := wr }).successCount = countTrue wr) := by
  cases hc : env.cached with
  | none =>
    refine ⟨rfl, rfl, rfl, rfl, fun _ => ?_⟩
    simp [handleKQuery, hc]
  | some r =>
    by_cases hs : is_stale env.now env.threshold r.last_modified
    · refine ⟨?_, ?_, ?_, ?_, fun _ => ?_⟩ <;> simp [handleKQuery, hc, hs]
    · refine ⟨?_, ?_, ?_, ?_, fun hne => ?_⟩
      · simp [handleKQuery, hc, hs]
      · simp [handleKQuery, hc, hs]
      · simp [handleKQuery, hc, hs]
      · simp [handleKQuery, hc, hs]
      · exact absurd (by simp [cacheState, hc, hs]) hne

/-- A concrete COLD-state environment: no cached descriptor. -/
def coldEnv : HandlerEnv :=
  ⟨none, fun _ => [⟨"k1", [(1, 2)], 10800⟩], fun _ => none, [true, false], 5, 1,
    (0, 10)⟩

/-- Witness for C8 at the concrete COLD environment, with one write outcome vector of
mixed success and one of total failure. -/
theorem partial_write_failure_not_escalated_witness :
    cacheState coldEnv ≠ CacheState.hot ∧
    ((handleKQuery { coldEnv with writeResults := [true, false] }).response =
        (handleKQuery { coldEnv with writeResults := [false, false] }).response ∧
      (handleKQuery { coldEnv with writeResults := [true, false] }).writes =
        (handleKQuery { coldEnv with writeResults := [false, false] }).writes ∧
      (handleKQuery { coldEnv with writeResults := [true, false] }).upstreamCalls =
        (handleKQuery { coldEnv with writeResults := [false, false] }).upstreamCalls ∧
      (handleKQuery { coldEnv with writeResults := [true, false] }).descriptorPersisted =
        (handleKQuery { coldEnv with writeResults := [false, false] }).descriptorPersisted ∧
      (cacheState coldEnv ≠ CacheState.hot →
        (handleKQuery { coldEnv with writeResults := [true, false] }).successCount =
          countTrue [true, false])) := by
  have h : cacheState coldEnv = CacheState.cold := rfl
  refine ⟨?_, partial_write_failure_not_escalated coldEnv [true, false] [false, false]⟩
  rw [h]
  intro hcontr
  cases hcontr

end Tscached
